import Mathlib

/-!
Shallow embedding of the rvideo crate (wire codec, frame slot, stream
registry, server fan-out loop, blocking and cooperative clients) and
verification of the specification claims against it.

Bytes are modelled as `Nat` values (< 256 on well-formed wires), byte
strings as `List Nat`, machine integers as `Nat` with explicit bounds,
wall-clock instants as `ℚ` (seconds).  Fallible operations return
`Option`/`Except`; stateful code is explicit state passing.
-/

namespace RVideo

/-- Little-endian encoding of a `u16` value (`u16::to_le_bytes`). -/
def u16le (n : Nat) : List Nat := [n % 256, n / 256 % 256]

/-- Little-endian encoding of a `u32` value (`u32::to_le_bytes`). -/
def u32le (n : Nat) : List Nat :=
  [n % 256, n / 256 % 256, n / 65536 % 256, n / 16777216 % 256]

/-- Little-endian decoding of two bytes (`u16::from_le_bytes`). -/
def readU16 (b0 b1 : Nat) : Nat := b0 + 256 * b1

/-- Little-endian decoding of a 4-byte buffer (`u32::from_le_bytes`);
anything but exactly 4 bytes is unreachable in the embedded code paths. -/
def readU32 (bs : List Nat) : Nat :=
  match bs with
  | [b0, b1, b2, b3] => b0 + 256 * b1 + 65536 * b2 + 16777216 * b3
  | _ => 0

/-- Video formats of `lib.rs` with their `u8` wire representation. -/
inductive Format
  | Luma8
  | Luma16
  | LumaA8
  | LumaA16
  | Rgb8
  | Rgb16
  | Rgba8
  | Rgba16
  | MJpeg
deriving DecidableEq

/-- Wire byte of a `Format` (the `#[bw(repr = u8)]` discriminants). -/
def Format.toByte : Format → Nat
  | .Luma8 => 0
  | .Luma16 => 1
  | .LumaA8 => 2
  | .LumaA16 => 3
  | .Rgb8 => 4
  | .Rgb16 => 5
  | .Rgba8 => 6
  | .Rgba16 => 7
  | .MJpeg => 64

/-- Decoding of a `Format` byte (`#[br(repr = u8)]`); unknown values are
rejected. -/
def Format.ofByte : Nat → Option Format
  | 0 => some .Luma8
  | 1 => some .Luma16
  | 2 => some .LumaA8
  | 3 => some .LumaA16
  | 4 => some .Rgb8
  | 5 => some .Rgb16
  | 6 => some .Rgba8
  | 7 => some .Rgba16
  | 64 => some .MJpeg
  | _ => none

/-- Error variants of `lib.rs` (payloads irrelevant to the claims are
dropped; all `std::io::Error` values collapse to `Io`). -/
inductive Error
  | InvalidStream
  | TooManyStreams
  | Io
  | ApiVersion (v : Nat)
  | Decode
  | FrameMetaDataTooLarge
  | FrameDataTooLarge
  | InvalidAddress
  | NotReady
  | AsyncTimeout
deriving DecidableEq

/-- Video frame of `lib.rs`: optional metadata bytes plus data bytes
(the `Arc` sharing wrappers carry no semantic content). -/
structure Frame where
  metadata : Option (List Nat)
  data : List Nat
deriving DecidableEq

/-- Greeting message of `lib.rs` (`magic b"R" | api_version:u8 |
streams_available:u16`, little-endian). -/
structure Greetings where
  api_version : Nat
  streams_available : Nat
deriving DecidableEq

/-- Serialization of `Greetings` (binrw `write`). -/
def Greetings.encode (g : Greetings) : List Nat :=
  82 :: g.api_version :: u16le g.streams_available

/-- Deserialization of `Greetings` from a 4-byte buffer (binrw `read`):
the magic byte must match, anything else is a decode error. -/
def Greetings.decode (bs : List Nat) : Option Greetings :=
  match bs with
  | [m, v, s0, s1] => if m = 82 then some ⟨v, readU16 s0 s1⟩ else none
  | _ => none

/-- StreamSelect message of `lib.rs` (`stream_id:u16 | max_fps:u8`). -/
structure StreamSelect where
  stream_id : Nat
  max_fps : Nat
deriving DecidableEq

/-- Serialization of `StreamSelect`. -/
def StreamSelect.encode (s : StreamSelect) : List Nat :=
  u16le s.stream_id ++ [s.max_fps]

/-- Deserialization of `StreamSelect` from a 3-byte buffer. -/
def StreamSelect.decode (bs : List Nat) : Option StreamSelect :=
  match bs with
  | [b0, b1, fps] => some ⟨readU16 b0 b1, fps⟩
  | _ => none

/-- StreamInfo message of `lib.rs`
(`id:u16 | format:u8 | width:u16 | height:u16`). -/
structure StreamInfo where
  id : Nat
  format : Format
  width : Nat
  height : Nat
deriving DecidableEq

/-- Serialization of `StreamInfo`. -/
def StreamInfo.encode (si : StreamInfo) : List Nat :=
  u16le si.id ++ [si.format.toByte] ++ u16le si.width ++ u16le si.height

/-- Deserialization of `StreamInfo` from a 7-byte buffer; an unknown
format byte is a decode error. -/
def StreamInfo.decode (bs : List Nat) : Option StreamInfo :=
  match bs with
  | [b0, b1, f, w0, w1, h0, h1] =>
    match Format.ofByte f with
    | some fmt => some ⟨readU16 b0 b1, fmt, readU16 w0 w1, readU16 h0 h1⟩
    | none => none
  | _ => none

/-- Model of `Read::read_exact`/`AsyncReadExt::read_exact` over a socket
whose pending input is a byte list: returns the `n` bytes read and the
remaining input, or `none` when the read fails (insufficient input). -/
def readExact (n : Nat) (input : List Nat) : Option (List Nat × List Nat) :=
  if n ≤ input.length then some (input.take n, input.drop n) else none

/-- Largest value representable in a `u32` (`u32::MAX`). -/
def U32MAX : Nat := 4294967295

/-- Length of a frame's metadata
(`frame.metadata.as_ref().map_or(0, |v| v.len())`). -/
def metadataLen (f : Frame) : Nat := (f.metadata.map List.length).getD 0

/-- Bytes written by `StreamServerInner::write_frame`: little-endian
`u32` metadata length, the metadata bytes when present, little-endian
`u32` data length, the data bytes. -/
def writeFrame (f : Frame) : List Nat :=
  u32le (metadataLen f) ++ f.metadata.getD [] ++ u32le f.data.length ++ f.data

/-- Frame reader shared verbatim by `<Client as Iterator>::next`
(client.rs) and `ClientAsync::read_next` (client_async.rs): read 4 bytes
and decode `metadata_len`; when positive read that many metadata bytes
(a zero length yields absent metadata); read 4 bytes and decode
`data_len`; read that many data bytes.  Returns the frame and the
remaining input, `none` on any failed read. -/
def parseFrame (input : List Nat) : Option (Frame × List Nat) :=
  match readExact 4 input with
  | none => none
  | some (lenb, r1) =>
    match (if 0 < readU32 lenb then
            (readExact (readU32 lenb) r1).map (fun p => (some p.1, p.2))
           else some (none, r1) : Option (Option (List Nat) × List Nat)) with
    | none => none
    | some (meta, r2) =>
      match readExact 4 r2 with
      | none => none
      | some (lenb2, r3) =>
        match readExact (readU32 lenb2) r3 with
        | none => none
        | some (dat, r4) => some (⟨meta, dat⟩, r4)

/-- State of a connected client: the bytes pending on its socket and the
`ready` flag set by a successful `select_stream`. -/
structure ClientState where
  input : List Nat
  ready : Bool
deriving DecidableEq

/-- Embedding of `<Client as Iterator>::next` (client.rs).  Result
components: the yielded element (`none` would end the iteration), the
bytes written back to the server during the call, the new client state.
The body performs no socket write, so the written component is `[]` on
every path; a failed `read_exact` surfaces as an `Io` error element and
leaves the modelled input unchanged (the partial consumption of a failed
read is unobservable). -/
def clientNext (c : ClientState) : Option (Except Error Frame) × List Nat × ClientState :=
  if c.ready = false then (some (.error .NotReady), [], c)
  else
    match parseFrame c.input with
    | none => (some (.error .Io), [], c)
    | some (f, rest) => (some (.ok f), [], { c with input := rest })

/-- Embedding of `ClientAsync::read_next` (client_async.rs).  Result
components: the returned value, the bytes written back to the server
during the call, the new client state.  After a successful read the
source executes `self.stream.write_all(&[0u8; 1])`, so the success path
writes the single byte `0`.  A timed-out read surfaces as
`AsyncTimeout`. -/
def readNextAsync (c : ClientState) : Except Error Frame × List Nat × ClientState :=
  if c.ready = false then (.error .NotReady, [], c)
  else
    match parseFrame c.input with
    | none => (.error .AsyncTimeout, [], c)
    | some (f, rest) => (.ok f, [0], { c with input := rest })

/-- Embedding of `Client::select_stream` (client.rs): write the encoded
`StreamSelect`, read 7 bytes of reply, decode a `StreamInfo`, and accept
it only when its `id` echoes the requested one, in which case `ready`
becomes true.  Result components: the bytes written to the server, the
returned value, the `ready` flag after the call (`ready` is the flag
before the call). -/
def selectStream (ready : Bool) (response : List Nat) (stream_id max_fps : Nat) :
    List Nat × Except Error StreamInfo × Bool :=
  let written := StreamSelect.encode ⟨stream_id, max_fps⟩
  match readExact 7 response with
  | none => (written, .error .Io, ready)
  | some (buf, _) =>
    match StreamInfo.decode buf with
    | none => (written, .error .Decode, ready)
    | some si =>
      if si.id = stream_id then (written, .ok si, true)
      else (written, .error .InvalidStream, ready)

/-- Contents of a `FrameCell`'s mutex-guarded `FrameValue` (server.rs):
the pending frame, if any, and the close flag. -/
structure FrameValue where
  current : Option Frame
  closed : Bool
deriving DecidableEq

/-- `FrameCell::close`: set the close flag (and notify all waiters). -/
def FrameValue.close (s : FrameValue) : FrameValue := { s with closed := true }

/-- `FrameCell::set`: overwrite the pending frame (and notify one
waiter); never blocks, never fails. -/
def FrameValue.set (f : Frame) (s : FrameValue) : FrameValue := { s with current := some f }

/-- Outcome of one lock-holding step of `FrameCell::get`: either the
call returns (with the cell state it leaves behind) or the caller blocks
on the condition variable in the given state, to resume at the loop body
once notified. -/
inductive GetOutcome
  | ret : Option Frame → FrameValue → GetOutcome
  | wait : FrameValue → GetOutcome
deriving DecidableEq

/-- Body of the `loop` inside `FrameCell::get`: take and return the
pending frame if there is one, otherwise wait on the condition variable.
A waiter woken by a notification resumes here. -/
def getLoop (s : FrameValue) : GetOutcome :=
  match s.current with
  | some c => .ret (some c) { s with current := none }
  | none => .wait s

/-- Entry of `FrameCell::get`: under the lock, return `none` immediately
when the cell is closed, otherwise run the take-or-wait loop. -/
def getEntry (s : FrameValue) : GetOutcome :=
  if s.closed then .ret none s else getLoop s

/-- Internal stream record of server.rs (`StreamInternal`): format,
picture size, and the map client-id → frame cell, modelled as an
association list ordered like the `BTreeMap`. -/
structure StreamInternal where
  format : Format
  width : Nat
  height : Nat
  clients : List (Nat × FrameValue)

/-- `StreamServerInner::add_stream`, state-passing: refuse with
`TooManyStreams` once the registry holds `u16::MAX` streams, otherwise
append a stream with no clients and return its index (the id pushed is
`streams.len() - 1` after the push, i.e. the old length). -/
def addStream (streams : List StreamInternal) (format : Format) (width height : Nat) :
    Except Error Nat × List StreamInternal :=
  if 65535 ≤ streams.length then (.error .TooManyStreams, streams)
  else (.ok streams.length, streams ++ [⟨format, width, height, []⟩])

/-- `StreamServerInner::stream_count`. -/
def streamCount (streams : List StreamInternal) : Nat := streams.length

/-- Iterated `add_stream` with fixed parameters: perform `n` successive
calls, collecting the returned ids in call order; stop early on an
error. -/
def addStreamsFrom (fmt : Format) (w h : Nat) : Nat → List StreamInternal → List Nat × List StreamInternal
  | 0, s => ([], s)
  | n + 1, s =>
    match addStream s fmt w h with
    | (.error _, s1) => ([], s1)
    | (.ok i, s1) =>
      let p := addStreamsFrom fmt w h n s1
      (i :: p.1, p.2)

/-- Size check on the metadata in `StreamServerInner::send_frame`
(`frame.metadata.as_ref().map_or(false, |v| v.len() > u32::MAX)`). -/
def metadataTooLarge (f : Frame) : Bool :=
  (f.metadata.map fun v => decide (U32MAX < v.length)).getD false

/-- `StreamServerInner::send_frame`, state-passing: validate the
metadata size, then the data size, then look the stream up; on success
deposit the frame into every client cell of that stream (the snapshot of
`stream.clients.values()` set outside the registry lock).  Errors return
before any cell is touched. -/
def sendFrame (streams : List StreamInternal) (stream_id : Nat) (f : Frame) :
    Except Error Unit × List StreamInternal :=
  if metadataTooLarge f then (.error .FrameMetaDataTooLarge, streams)
  else if U32MAX < f.data.length then (.error .FrameDataTooLarge, streams)
  else
    match streams[stream_id]? with
    | none => (.error .InvalidStream, streams)
    | some st =>
      (.ok (), streams.set stream_id
        { st with clients := st.clients.map fun p => (p.1, FrameValue.set f p.2) })

/-- `StreamServerInner::stream_info_packed`: look the stream up and
serialize a `StreamInfo` whose `id` field is the requested id. -/
def streamInfoPacked (streams : List StreamInternal) (stream_id : Nat) :
    Except Error (List Nat) :=
  match streams[stream_id]? with
  | none => .error .InvalidStream
  | some st => .ok (StreamInfo.encode ⟨stream_id, st.format, st.width, st.height⟩)

/-- Rate interval computed in `StreamServerInner::handle_connection`:
`Duration::from_secs_f64(1.0 / f64::from(max_fps))`.  For `max_fps = 0`
the quotient is positive infinity and `Duration::from_secs_f64` aborts
the handler thread, modelled as `none`; otherwise the interval is
`1 / max_fps` seconds. -/
def minTimeBetweenFrames (max_fps : Nat) : Option ℚ :=
  if max_fps = 0 then none else some (1 / (max_fps : ℚ))

/-- Streaming loop of `StreamServerInner::handle_connection`, driven by
the instants (in seconds) at which successive frames are taken from the
slot: with `last_frame` holding the send time of the last written frame,
a frame whose saturating elapsed time `now - last` is below
`minInterval` is dropped (`continue`) without touching `last_frame`;
otherwise `last_frame` is replaced by `now` and the frame is written.
Returns the instants of the written frames. -/
def rateLoop (minInterval : ℚ) : Option ℚ → List ℚ → List ℚ
  | some l, now :: rest =>
    if max (now - l) 0 < minInterval then rateLoop minInterval (some l) rest
    else now :: rateLoop minInterval (some now) rest
  | none, now :: rest => now :: rateLoop minInterval (some now) rest
  | _, [] => []

/-- State of the counting `Semaphore` of semaphore.rs: permits handed
out and the fixed capacity (the `capacity` field is set at construction
and no operation writes it). -/
structure SemaphoreState where
  permissions : Nat
  capacity : Nat
deriving DecidableEq

/-- `Semaphore::new`. -/
def semaphoreNew (capacity : Nat) : SemaphoreState := ⟨0, capacity⟩

/-- `Semaphore::acquire`: block (`none`) while the count equals the
capacity, otherwise increment the count. -/
def semaphoreAcquire (s : SemaphoreState) : Option SemaphoreState :=
  if s.permissions = s.capacity then none else some { s with permissions := s.permissions + 1 }

/-- `SemaphoreInner::release` (run by `SemaphoreGuard::drop`). -/
def semaphoreRelease (s : SemaphoreState) : SemaphoreState :=
  { s with permissions := s.permissions - 1 }

/-- Mutable server configuration touched by `Server::set_max_clients`
(the `max_clients` atomic of `StreamServerInner`). -/
structure ServerState where
  maxClients : Nat
deriving DecidableEq

/-- `Server::set_max_clients`: store the new value in the atomic. -/
def setMaxClients (srv : ServerState) (n : Nat) : ServerState := { srv with maxClients := n }

/-- Gate construction at the top of `Server::serve`:
`Semaphore::new(self.inner.max_clients.load(..))`, a single load of the
atomic before the accept loop starts. -/
def serveGate (srv : ServerState) : SemaphoreState := semaphoreNew srv.maxClients

/-- Events interleaved with a running accept loop: a concurrent
`set_max_clients`, a gate acquisition before spawning a handler, a gate
release on handler exit. -/
inductive ServeEvent
  | setMax : Nat → ServeEvent
  | acquire : ServeEvent
  | release : ServeEvent

/-- Effect of one event on the pair (server configuration, gate of the
running accept loop).  A blocked `acquire` leaves the gate count
unchanged until a permit frees up, so it is modelled as the identity. -/
def serveStep (p : ServerState × SemaphoreState) : ServeEvent → ServerState × SemaphoreState
  | .setMax n => (setMaxClients p.1 n, p.2)
  | .acquire => (p.1, (semaphoreAcquire p.2).getD p.2)
  | .release => (p.1, semaphoreRelease p.2)

/-! Helper lemmas. -/

theorem readU16_roundtrip (n : Nat) (h : n < 65536) :
    readU16 (n % 256) (n / 256 % 256) = n := by
  unfold readU16; omega

theorem readU32_u32le (n : Nat) (h : n < 4294967296) :
    readU32 (u32le n) = n := by
  have e : readU32 (u32le n) = n % 256 + 256 * (n / 256 % 256)
      + 65536 * (n / 65536 % 256) + 16777216 * (n / 16777216 % 256) := rfl
  rw [e]; omega

theorem readExact_append (bs rest : List Nat) :
    readExact bs.length (bs ++ rest) = some (bs, rest) := by
  unfold readExact
  rw [if_pos (by simp)]
  simp

theorem readExact_append_len (n : Nat) (bs rest : List Nat) (h : bs.length = n) :
    readExact n (bs ++ rest) = some (bs, rest) := by
  subst h; exact readExact_append bs rest

theorem Format.ofByte_toByte (f : Format) : Format.ofByte f.toByte = some f := by
  cases f <;> rfl

theorem greetings_decode_encode (g : Greetings) (h : g.streams_available < 65536) :
    Greetings.decode (Greetings.encode g) = some g := by
  obtain ⟨v, s⟩ := g
  simp only [Greetings.encode, Greetings.decode, u16le]
  rw [if_pos trivial]
  simp only [Option.some.injEq, Greetings.mk.injEq, true_and]
  exact readU16_roundtrip s h

theorem streamSelect_decode_encode (s : StreamSelect) (h : s.stream_id < 65536) :
    StreamSelect.decode (StreamSelect.encode s) = some s := by
  obtain ⟨i, fps⟩ := s
  simp only [StreamSelect.encode, StreamSelect.decode, u16le, List.cons_append,
    List.nil_append, Option.some.injEq, StreamSelect.mk.injEq, and_true]
  exact readU16_roundtrip i h

theorem streamInfo_decode_encode (si : StreamInfo) (hi : si.id < 65536)
    (hw : si.width < 65536) (hh : si.height < 65536) :
    StreamInfo.decode (StreamInfo.encode si) = some si := by
  obtain ⟨i, fmt, w, h⟩ := si
  simp only [StreamInfo.encode, StreamInfo.decode, u16le, List.cons_append,
    List.nil_append, List.append_assoc]
  rw [Format.ofByte_toByte]
  simp only [Option.some.injEq, StreamInfo.mk.injEq, true_and]
  exact ⟨readU16_roundtrip i hi, readU16_roundtrip w hw, readU16_roundtrip h hh⟩

theorem parseFrame_writeFrame (f : Frame) (rest : List Nat)
    (hm : f.metadata ≠ some [])
    (h1 : metadataLen f ≤ U32MAX) (h2 : f.data.length ≤ U32MAX) :
    parseFrame (writeFrame f ++ rest) = some (f, rest) := by
  obtain ⟨meta, dat⟩ := f
  have hd : dat.length < 4294967296 := by
    simp only [U32MAX] at h2; omega
  cases meta with
  | none =>
    have hw : writeFrame ⟨none, dat⟩ ++ rest
        = u32le 0 ++ (u32le dat.length ++ (dat ++ rest)) := by
      simp [writeFrame, metadataLen, List.append_assoc]
    rw [hw]
    have e1 : readExact 4 (u32le 0 ++ (u32le dat.length ++ (dat ++ rest)))
        = some (u32le 0, u32le dat.length ++ (dat ++ rest)) :=
      readExact_append_len 4 _ _ rfl
    have e2 : readExact 4 (u32le dat.length ++ (dat ++ rest))
        = some (u32le dat.length, dat ++ rest) :=
      readExact_append_len 4 _ _ rfl
    have e3 : readExact dat.length (dat ++ rest) = some (dat, rest) :=
      readExact_append dat rest
    have r0 : readU32 (u32le 0) = 0 := rfl
    simp only [parseFrame, e1, e2, r0, readU32_u32le dat.length hd, e3,
      Nat.lt_irrefl, if_false]
  | some md =>
    have hmd : md ≠ [] := by intro h; exact hm (by rw [h])
    have hml : 0 < md.length := List.length_pos.mpr hmd
    have hm32 : md.length < 4294967296 := by
      simp only [metadataLen, Option.map, Option.getD, U32MAX] at h1; omega
    have hw : writeFrame ⟨some md, dat⟩ ++ rest
        = u32le md.length ++ (md ++ (u32le dat.length ++ (dat ++ rest))) := by
      simp [writeFrame, metadataLen, List.append_assoc]
    rw [hw]
    have e1 : readExact 4 (u32le md.length ++ (md ++ (u32le dat.length ++ (dat ++ rest))))
        = some (u32le md.length, md ++ (u32le dat.length ++ (dat ++ rest))) :=
      readExact_append_len 4 _ _ rfl
    have e2 : readExact md.length (md ++ (u32le dat.length ++ (dat ++ rest)))
        = some (md, u32le dat.length ++ (dat ++ rest)) :=
      readExact_append _ _
    have e3 : readExact 4 (u32le dat.length ++ (dat ++ rest))
        = some (u32le dat.length, dat ++ rest) :=
      readExact_append_len 4 _ _ rfl
    have e4 : readExact dat.length (dat ++ rest) = some (dat, rest) :=
      readExact_append dat rest
    simp only [parseFrame, e1, e2, e3, e4, readU32_u32le md.length hm32,
      readU32_u32le dat.length hd, if_pos hml, Option.map_some']

theorem readExact_all (bs : List Nat) : readExact bs.length bs = some (bs, []) := by
  unfold readExact
  simp

theorem StreamInfo.encode_length (si : StreamInfo) : (StreamInfo.encode si).length = 7 := rfl

theorem readExact_streamInfo (si : StreamInfo) :
    readExact 7 (StreamInfo.encode si) = some (StreamInfo.encode si, []) := by
  have h := readExact_all (StreamInfo.encode si)
  rwa [StreamInfo.encode_length] at h

theorem rateLoop_sep (minI : ℚ) (hpos : 0 < minI) (times : List ℚ) :
    ∀ l : Option ℚ,
      List.Chain' (fun a b => minI ≤ b - a) (rateLoop minI l times) ∧
      (∀ lv : ℚ, l = some lv → ∀ x ∈ (rateLoop minI l times).head?, minI ≤ x - lv) := by
  induction times with
  | nil =>
    intro l
    refine ⟨?_, ?_⟩
    · cases l <;> simp [rateLoop]
    · intro lv _ x hx
      cases l <;> simp [rateLoop] at hx
  | cons now rest ih =>
    intro l
    cases l with
    | none =>
      have e : rateLoop minI none (now :: rest) = now :: rateLoop minI (some now) rest := rfl
      rw [e]
      refine ⟨?_, ?_⟩
      · rw [List.chain'_cons']
        exact ⟨fun x hx => (ih (some now)).2 now rfl x hx, (ih (some now)).1⟩
      · intro lv hl
        cases hl
    | some lv =>
      by_cases hc : max (now - lv) 0 < minI
      · have e : rateLoop minI (some lv) (now :: rest) = rateLoop minI (some lv) rest := by
          simp [rateLoop, hc]
        rw [e]
        refine ⟨(ih (some lv)).1, ?_⟩
        intro lv' hl' x hx
        injection hl' with hlv
        subst hlv
        exact (ih (some lv)).2 lv rfl x hx
      · have e : rateLoop minI (some lv) (now :: rest)
            = now :: rateLoop minI (some now) rest := by
          simp [rateLoop, hc]
        rw [e]
        have hmax : minI ≤ max (now - lv) 0 := not_lt.mp hc
        have hnl : minI ≤ now - lv := by
          rcases max_choice (now - lv) 0 with h | h
          · rwa [h] at hmax
          · rw [h] at hmax; linarith
        refine ⟨?_, ?_⟩
        · rw [List.chain'_cons']
          exact ⟨fun x hx => (ih (some now)).2 now rfl x hx, (ih (some now)).1⟩
        · intro lv' hl' x hx
          injection hl' with hlv
          subst hlv
          simp only [List.head?_cons, Option.mem_def, Option.some.injEq] at hx
          subst hx
          exact hnl

theorem addStreamsFrom_spec (fmt : Format) (w h : Nat) :
    ∀ (n : Nat) (s : List StreamInternal), s.length + n ≤ 65535 →
      (addStreamsFrom fmt w h n s).1 = List.range' s.length n ∧
      (addStreamsFrom fmt w h n s).2.length = s.length + n := by
  intro n
  induction n with
  | zero =>
    intro s _
    simp [addStreamsFrom]
  | succ n ih =>
    intro s hs
    have hlen : ¬ 65535 ≤ s.length := by omega
    have e : addStream s fmt w h = (.ok s.length, s ++ [⟨fmt, w, h, []⟩]) := by
      simp [addStream, hlen]
    have hlen1 : (s ++ [(⟨fmt, w, h, []⟩ : StreamInternal)]).length = s.length + 1 := by
      simp
    have hih := ih (s ++ [⟨fmt, w, h, []⟩]) (by omega)
    rw [hlen1] at hih
    refine ⟨?_, ?_⟩
    · simp only [addStreamsFrom, e, hih.1, List.range'_succ]
    · simp only [addStreamsFrom, e, hih.2]
      omega

/-! Claim theorems. -/

/-- C1: on a connection delivering the frame `{metadata: none, data: [1]}`,
the blocking client's `next` writes no bytes back to the server, but the
cooperative client's `read_next` writes the single byte `0` back after
the frame — the legacy one-byte write-back is present in the cooperative
variant, so the two clients do not behave identically on the wire. -/
theorem claim_C1_async_writeback :
    clientNext ⟨writeFrame ⟨none, [1]⟩, true⟩
      = (some (.ok ⟨none, [1]⟩), [], ⟨[], true⟩) ∧
    readNextAsync ⟨writeFrame ⟨none, [1]⟩, true⟩
      = (.ok ⟨none, [1]⟩, [0], ⟨[], true⟩) :=
  ⟨rfl, rfl⟩

/-- C2: the server neither rejects `max_fps = 0` at `StreamSelect`
decode time (the 3-byte message `00 00 00` decodes successfully) nor
treats it as "no limit": the rate-interval computation
`Duration::from_secs_f64(1.0 / 0.0)` aborts the connection handler
(modelled by `minTimeBetweenFrames 0 = none`), so the handler does not
proceed. -/
theorem claim_C2_zero_max_fps :
    StreamSelect.decode [0, 0, 0] = some ⟨0, 0⟩ ∧
    minTimeBetweenFrames 0 = none :=
  ⟨rfl, rfl⟩

/-- C3: `close` sets the closed flag; a later `set` leaves it set; a
`get` entered after the close returns `none` even with a frame pending
in the slot; but a consumer already blocked inside `get`'s wait loop,
woken by `close` on an empty slot, re-enters the wait instead of
returning `none` — it never terminates, contradicting the claim that
registry destruction makes every blocked consumer return `none`. -/
theorem claim_C3_close_terminal_but_waiter_stuck :
    FrameValue.close ⟨some ⟨none, [1]⟩, false⟩ = ⟨some ⟨none, [1]⟩, true⟩ ∧
    (FrameValue.set ⟨none, [2]⟩ ⟨none, true⟩).closed = true ∧
    getEntry ⟨some ⟨none, [1]⟩, true⟩ = .ret none ⟨some ⟨none, [1]⟩, true⟩ ∧
    getLoop ⟨none, true⟩ = .wait ⟨none, true⟩ :=
  ⟨rfl, rfl, rfl, rfl⟩

/-- C4 (amended): decoding the encoding is the identity for every valid
`Greeting`, `StreamSelect` and `StreamInfo`, and parsing the bytes
produced by the server's `write_frame` with the client's frame reader
reconstructs the frame sent, for every frame whose metadata and data
fit in 2^32−1 bytes and whose metadata, when present, is non-empty. -/
theorem claim_C4_codec_roundtrip (g : Greetings) (sel : StreamSelect) (si : StreamInfo)
    (f : Frame) (rest : List Nat)
    (hg : g.streams_available < 65536)
    (hs : sel.stream_id < 65536)
    (hi : si.id < 65536) (hw : si.width < 65536) (hh : si.height < 65536)
    (hm : f.metadata ≠ some [])
    (hml : metadataLen f ≤ U32MAX) (hdl : f.data.length ≤ U32MAX) :
    Greetings.decode (Greetings.encode g) = some g ∧
    StreamSelect.decode (StreamSelect.encode sel) = some sel ∧
    StreamInfo.decode (StreamInfo.encode si) = some si ∧
    parseFrame (writeFrame f ++ rest) = some (f, rest) :=
  ⟨greetings_decode_encode g hg, streamSelect_decode_encode sel hs,
   streamInfo_decode_encode si hi hw hh, parseFrame_writeFrame f rest hm hml hdl⟩

/-- C4 counterexample: the frame with present-but-empty metadata is
encoded with `metadata_len = 0` and decodes to a frame with absent
metadata, so `decode (encode M) ≠ M` at `M = {metadata: some [], data: []}`. -/
theorem claim_C4_counterexample :
    parseFrame (writeFrame ⟨some [], []⟩) = some (⟨none, []⟩, []) ∧
    (⟨none, []⟩ : Frame) ≠ (⟨some [], []⟩ : Frame) := by
  refine ⟨rfl, ?_⟩
  intro h
  simpa using congrArg Frame.metadata h

/-- C4 witness: the roundtrip theorem instantiated at the spec's literal
scenario values (greeting `⟨1, 1⟩`, select `⟨0, 5⟩`, info
`⟨0, Rgb8, 4, 2⟩`, frame `aa bb cc / ff` followed by a further byte). -/
theorem claim_C4_codec_roundtrip_witness :
    ((⟨1, 1⟩ : Greetings).streams_available < 65536
      ∧ (⟨0, 5⟩ : StreamSelect).stream_id < 65536
      ∧ (⟨0, .Rgb8, 4, 2⟩ : StreamInfo).id < 65536
      ∧ (⟨0, .Rgb8, 4, 2⟩ : StreamInfo).width < 65536
      ∧ (⟨0, .Rgb8, 4, 2⟩ : StreamInfo).height < 65536
      ∧ (⟨some [170, 187, 204], [255]⟩ : Frame).metadata ≠ some []
      ∧ metadataLen ⟨some [170, 187, 204], [255]⟩ ≤ U32MAX
      ∧ (⟨some [170, 187, 204], [255]⟩ : Frame).data.length ≤ U32MAX)
    ∧ (Greetings.decode (Greetings.encode ⟨1, 1⟩) = some ⟨1, 1⟩
      ∧ StreamSelect.decode (StreamSelect.encode ⟨0, 5⟩) = some ⟨0, 5⟩
      ∧ StreamInfo.decode (StreamInfo.encode ⟨0, .Rgb8, 4, 2⟩) = some ⟨0, .Rgb8, 4, 2⟩
      ∧ parseFrame (writeFrame ⟨some [170, 187, 204], [255]⟩ ++ [9])
          = some (⟨some [170, 187, 204], [255]⟩, [9])) :=
  ⟨⟨by decide, by decide, by decide, by decide, by decide, by decide, by decide, by decide⟩,
   claim_C4_codec_roundtrip ⟨1, 1⟩ ⟨0, 5⟩ ⟨0, .Rgb8, 4, 2⟩ ⟨some [170, 187, 204], [255]⟩ [9]
     (by decide) (by decide) (by decide) (by decide) (by decide)
     (by decide) (by decide) (by decide)⟩

/-- C8 counterexample: at the client state that is not ready with no
pending input, `next` yields an error element, and the subsequent call
to `next` yields a further element — iteration past an error element
does produce more elements, refuting the claim that the sequence
terminates after an error. -/
theorem claim_C8_counterexample :
    (clientNext ⟨[], false⟩).1 = some (.error .NotReady) ∧
    (clientNext (clientNext ⟨[], false⟩).2.2).1 = some (.error .NotReady) :=
  ⟨rfl, rfl⟩

/-- C8 (amended): after the blocking client's frame sequence yields an
error element, subsequent iteration continues to produce elements —
`next` never returns the end-of-sequence marker, on any state, so the
caller is the one who must stop consuming after an error. -/
theorem claim_C8_iterator_not_fused (c : ClientState) : (clientNext c).1 ≠ none := by
  unfold clientNext
  by_cases h : c.ready = false
  · rw [if_pos h]
    simp
  · rw [if_neg h]
    cases hp : parseFrame c.input with
    | none => simp
    | some p =>
      obtain ⟨f, rest⟩ := p
      simp

/-- C5: `send_frame` returns `FrameMetaDataTooLarge` for oversized
metadata, `FrameDataTooLarge` for valid metadata but oversized data,
`InvalidStream` for valid sizes and an unregistered stream id, and
success for valid sizes and a registered stream — regardless of the
state of any subscriber cell; in every error case the registry (and so
every subscriber slot) is left unmodified. -/
theorem claim_C5_send_frame (streams : List StreamInternal) (i j k : Nat)
    (fm fd fok : Frame)
    (hm : metadataTooLarge fm = true)
    (hd1 : metadataTooLarge fd = false) (hd2 : U32MAX < fd.data.length)
    (ho1 : metadataTooLarge fok = false) (ho2 : fok.data.length ≤ U32MAX)
    (hj : streams.length ≤ j) (hi : i < streams.length) :
    sendFrame streams k fm = (.error .FrameMetaDataTooLarge, streams) ∧
    sendFrame streams k fd = (.error .FrameDataTooLarge, streams) ∧
    sendFrame streams j fok = (.error .InvalidStream, streams) ∧
    (sendFrame streams i fok).1 = .ok () := by
  have ho2n : ¬ U32MAX < fok.data.length := not_lt.mpr ho2
  refine ⟨?_, ?_, ?_, ?_⟩
  · simp [sendFrame, hm]
  · simp [sendFrame, hd1, hd2]
  · simp [sendFrame, ho1, ho2n, List.getElem?_eq_none hj]
  · simp [sendFrame, ho1, ho2n, List.getElem?_eq_getElem hi]

/-- C5 witness: the theorem applied to a one-stream registry with one
subscriber, a frame with 2^32 metadata bytes, a frame with 2^32 data
bytes, and a one-byte frame sent to stream 0 (registered) and stream 3
(unregistered). -/
theorem claim_C5_send_frame_witness :
    (metadataTooLarge ⟨some (List.replicate 4294967296 0), []⟩ = true
      ∧ metadataTooLarge ⟨none, List.replicate 4294967296 0⟩ = false
      ∧ U32MAX < (⟨none, List.replicate 4294967296 0⟩ : Frame).data.length
      ∧ metadataTooLarge ⟨none, [1]⟩ = false
      ∧ (⟨none, [1]⟩ : Frame).data.length ≤ U32MAX
      ∧ ([⟨.Rgb8, 4, 2, [(0, ⟨none, false⟩)]⟩] : List StreamInternal).length ≤ 3
      ∧ 0 < ([⟨.Rgb8, 4, 2, [(0, ⟨none, false⟩)]⟩] : List StreamInternal).length)
    ∧ (sendFrame [⟨.Rgb8, 4, 2, [(0, ⟨none, false⟩)]⟩] 1 ⟨some (List.replicate 4294967296 0), []⟩
        = (.error .FrameMetaDataTooLarge, [⟨.Rgb8, 4, 2, [(0, ⟨none, false⟩)]⟩])
      ∧ sendFrame [⟨.Rgb8, 4, 2, [(0, ⟨none, false⟩)]⟩] 1 ⟨none, List.replicate 4294967296 0⟩
        = (.error .FrameDataTooLarge, [⟨.Rgb8, 4, 2, [(0, ⟨none, false⟩)]⟩])
      ∧ sendFrame [⟨.Rgb8, 4, 2, [(0, ⟨none, false⟩)]⟩] 3 ⟨none, [1]⟩
        = (.error .InvalidStream, [⟨.Rgb8, 4, 2, [(0, ⟨none, false⟩)]⟩])
      ∧ (sendFrame [⟨.Rgb8, 4, 2, [(0, ⟨none, false⟩)]⟩] 0 ⟨none, [1]⟩).1 = .ok ()) :=
  ⟨⟨by simp only [metadataTooLarge, Option.map_some', Option.getD_some,
        List.length_replicate, decide_eq_true_eq, U32MAX]; norm_num,
    rfl,
    by show U32MAX < (List.replicate 4294967296 (0 : Nat)).length
       rw [List.length_replicate]; norm_num [U32MAX],
    rfl, by norm_num [U32MAX], by norm_num, by norm_num⟩,
   claim_C5_send_frame [⟨.Rgb8, 4, 2, [(0, ⟨none, false⟩)]⟩] 0 3 1
     ⟨some (List.replicate 4294967296 0), []⟩ ⟨none, List.replicate 4294967296 0⟩ ⟨none, [1]⟩
     (by simp only [metadataTooLarge, Option.map_some', Option.getD_some,
        List.length_replicate, decide_eq_true_eq, U32MAX]; norm_num)
     rfl
     (by show U32MAX < (List.replicate 4294967296 (0 : Nat)).length
         rw [List.length_replicate]; norm_num [U32MAX])
     rfl (by norm_num [U32MAX]) (by norm_num) (by norm_num)⟩

/-- C6: with `max_fps = F ≥ 1` the computed interval is `1/F` seconds;
in the streaming loop a frame arriving less than the interval after the
last send is dropped with `last_send_time` untouched, otherwise the
frame is written with `last_send_time` set to now; consequently the
instants of the written frames are pairwise at least `1/F` apart. -/
theorem claim_C6_rate_limit (F : Nat) (times : List ℚ) (l1 now1 l2 now2 : ℚ)
    (rest1 rest2 : List ℚ)
    (hF : 1 ≤ F)
    (hdrop : max (now1 - l1) 0 < 1 / (F : ℚ))
    (hemit : 1 / (F : ℚ) ≤ max (now2 - l2) 0) :
    minTimeBetweenFrames F = some (1 / (F : ℚ)) ∧
    rateLoop (1 / (F : ℚ)) (some l1) (now1 :: rest1)
      = rateLoop (1 / (F : ℚ)) (some l1) rest1 ∧
    rateLoop (1 / (F : ℚ)) (some l2) (now2 :: rest2)
      = now2 :: rateLoop (1 / (F : ℚ)) (some now2) rest2 ∧
    List.Chain' (fun a b => 1 / (F : ℚ) ≤ b - a)
      (rateLoop (1 / (F : ℚ)) none times) := by
  have hF0 : F ≠ 0 := by omega
  have hFq : (0 : ℚ) < F := by
    have : 0 < F := by omega
    exact_mod_cast this
  have hpos : 0 < 1 / (F : ℚ) := by positivity
  have e1 : rateLoop (1 / (F : ℚ)) (some l1) (now1 :: rest1)
      = if max (now1 - l1) 0 < 1 / (F : ℚ)
        then rateLoop (1 / (F : ℚ)) (some l1) rest1
        else now1 :: rateLoop (1 / (F : ℚ)) (some now1) rest1 := rfl
  have e2 : rateLoop (1 / (F : ℚ)) (some l2) (now2 :: rest2)
      = if max (now2 - l2) 0 < 1 / (F : ℚ)
        then rateLoop (1 / (F : ℚ)) (some l2) rest2
        else now2 :: rateLoop (1 / (F : ℚ)) (some now2) rest2 := rfl
  refine ⟨?_, ?_, ?_, ?_⟩
  · rw [minTimeBetweenFrames, if_neg hF0]
  · rw [e1, if_pos hdrop]
  · rw [e2, if_neg (not_lt.mpr hemit)]
  · exact (rateLoop_sep (1 / (F : ℚ)) hpos times none).1

/-- C6 witness: the theorem at `F = 5` on the arrival instants
`0, 1/10, 3/10, 1` (the frame at `1/10` is dropped, those at `0`, `3/10`
and `1` are written). -/
theorem claim_C6_rate_limit_witness :
    (1 ≤ 5
      ∧ max ((1 : ℚ)/10 - 0) 0 < 1 / ((5 : Nat) : ℚ)
      ∧ 1 / ((5 : Nat) : ℚ) ≤ max ((3 : ℚ)/10 - 0) 0)
    ∧ (minTimeBetweenFrames 5 = some (1 / ((5 : Nat) : ℚ))
      ∧ rateLoop (1 / ((5 : Nat) : ℚ)) (some 0) ((1 : ℚ)/10 :: [])
          = rateLoop (1 / ((5 : Nat) : ℚ)) (some 0) []
      ∧ rateLoop (1 / ((5 : Nat) : ℚ)) (some 0) ((3 : ℚ)/10 :: [])
          = (3 : ℚ)/10 :: rateLoop (1 / ((5 : Nat) : ℚ)) (some ((3 : ℚ)/10)) []
      ∧ List.Chain' (fun a b => 1 / ((5 : Nat) : ℚ) ≤ b - a)
          (rateLoop (1 / ((5 : Nat) : ℚ)) none [0, 1/10, 3/10, 1])) :=
  ⟨⟨by norm_num, by norm_num, by norm_num⟩,
   claim_C6_rate_limit 5 [0, 1/10, 3/10, 1] 0 (1/10) 0 (3/10) [] []
     (by norm_num) (by norm_num) (by norm_num)⟩

/-- C7: starting from an empty registry, `N ≤ 65535` successive
`add_stream` calls succeed and return the ids `0, 1, …, N−1` in order
(each id is the new stream's index), leaving `stream_count = N`; a
further `add_stream` on a registry holding 65,535 streams returns
`TooManyStreams` and leaves the registry unchanged. -/
theorem claim_C7_add_stream_ids (N : Nat) (s : List StreamInternal)
    (fmt fmt2 : Format) (w h w2 h2 : Nat)
    (hN : N ≤ 65535) (hs : s.length = 65535) :
    (addStreamsFrom fmt w h N []).1 = List.range N ∧
    streamCount (addStreamsFrom fmt w h N []).2 = N ∧
    addStream s fmt2 w2 h2 = (.error .TooManyStreams, s) := by
  have hspec := addStreamsFrom_spec fmt w h N [] (by simpa using hN)
  refine ⟨?_, ?_, ?_⟩
  · rw [hspec.1]
    simp [List.range_eq_range']
  · simpa [streamCount] using hspec.2
  · simp [addStream, hs]

/-- C7 witness: three calls from the empty registry yield ids `0, 1, 2`
and count 3; a 65,535-stream registry rejects the next call. -/
theorem claim_C7_add_stream_ids_witness :
    (3 ≤ 65535
      ∧ (List.replicate 65535 (⟨.Rgb8, 4, 2, []⟩ : StreamInternal)).length = 65535)
    ∧ ((addStreamsFrom .Rgb8 4 2 3 []).1 = List.range 3
      ∧ streamCount (addStreamsFrom .Rgb8 4 2 3 []).2 = 3
      ∧ addStream (List.replicate 65535 (⟨.Rgb8, 4, 2, []⟩ : StreamInternal)) .MJpeg 8 8
        = (.error .TooManyStreams, List.replicate 65535 (⟨.Rgb8, 4, 2, []⟩ : StreamInternal))) :=
  ⟨⟨by decide, by rw [List.length_replicate]⟩,
   claim_C7_add_stream_ids 3 (List.replicate 65535 ⟨.Rgb8, 4, 2, []⟩) .Rgb8 .MJpeg 4 2 8 8
     (by decide) (by rw [List.length_replicate])⟩

/-- C9: the `StreamInfo` the server packs for a registered stream
carries `id` equal to the requested stream id, and the client accepts
exactly that reply — `select_stream` on it returns the info with the
echoed id and sets `ready`; a reply whose id differs from the request
makes `select_stream` fail with `InvalidStream` and leaves `ready`
unchanged. -/
theorem claim_C9_stream_info_echo (streams : List StreamInternal) (st : StreamInternal)
    (i fps j fps2 : Nat) (ready : Bool) (si2 : StreamInfo)
    (hst : streams[i]? = some st) (hi : i < 65536)
    (hw : st.width < 65536) (hh : st.height < 65536)
    (hne : si2.id ≠ j) (hb1 : si2.id < 65536) (hb2 : si2.width < 65536)
    (hb3 : si2.height < 65536) :
    streamInfoPacked streams i = .ok (StreamInfo.encode ⟨i, st.format, st.width, st.height⟩) ∧
    selectStream false (StreamInfo.encode ⟨i, st.format, st.width, st.height⟩) i fps
      = (StreamSelect.encode ⟨i, fps⟩, .ok ⟨i, st.format, st.width, st.height⟩, true) ∧
    selectStream ready (StreamInfo.encode si2) j fps2
      = (StreamSelect.encode ⟨j, fps2⟩, .error .InvalidStream, ready) := by
  refine ⟨by simp [streamInfoPacked, hst], ?_, ?_⟩
  · have e1 := readExact_streamInfo ⟨i, st.format, st.width, st.height⟩
    have e2 := streamInfo_decode_encode ⟨i, st.format, st.width, st.height⟩ hi hw hh
    simp [selectStream, e1, e2]
  · have e1 := readExact_streamInfo si2
    have e2 := streamInfo_decode_encode si2 hb1 hb2 hb3
    simp only [selectStream, e1, e2]
    rw [if_neg hne]

/-- C9 witness: the theorem on a one-stream registry, requesting stream
0 at 5 fps, and a mismatched reply with id 0 against a request for
stream 1. -/
theorem claim_C9_stream_info_echo_witness :
    (([(⟨.Rgb8, 4, 2, []⟩ : StreamInternal)][0]? = some ⟨.Rgb8, 4, 2, []⟩)
      ∧ 0 < 65536
      ∧ (⟨.Rgb8, 4, 2, []⟩ : StreamInternal).width < 65536
      ∧ (⟨.Rgb8, 4, 2, []⟩ : StreamInternal).height < 65536
      ∧ (⟨0, .Rgb8, 4, 2⟩ : StreamInfo).id ≠ 1
      ∧ (⟨0, .Rgb8, 4, 2⟩ : StreamInfo).id < 65536
      ∧ (⟨0, .Rgb8, 4, 2⟩ : StreamInfo).width < 65536
      ∧ (⟨0, .Rgb8, 4, 2⟩ : StreamInfo).height < 65536)
    ∧ (streamInfoPacked [⟨.Rgb8, 4, 2, []⟩] 0 = .ok (StreamInfo.encode ⟨0, .Rgb8, 4, 2⟩)
      ∧ selectStream false (StreamInfo.encode ⟨0, .Rgb8, 4, 2⟩) 0 5
        = (StreamSelect.encode ⟨0, 5⟩, .ok ⟨0, .Rgb8, 4, 2⟩, true)
      ∧ selectStream false (StreamInfo.encode ⟨0, .Rgb8, 4, 2⟩) 1 10
        = (StreamSelect.encode ⟨1, 10⟩, .error .InvalidStream, false)) :=
  ⟨⟨rfl, by decide, by decide, by decide, by decide, by decide, by decide, by decide⟩,
   claim_C9_stream_info_echo [⟨.Rgb8, 4, 2, []⟩] ⟨.Rgb8, 4, 2, []⟩ 0 5 1 10 false
     ⟨0, .Rgb8, 4, 2⟩ rfl (by decide) (by decide) (by decide)
     (by decide) (by decide) (by decide) (by decide)⟩

/-- C10: the capacity gate of a running `serve` loop is built from one
load of `max_clients` at the moment `serve` starts, and no subsequent
event — `set_max_clients`, gate acquisitions or releases — ever changes
its capacity; a `set_max_clients` only changes the capacity of gates of
serve loops started afterwards. -/
theorem claim_C10_capacity_fixed_at_serve (srv : ServerState)
    (evs : List ServeEvent) (n : Nat) :
    ((evs.foldl serveStep (srv, serveGate srv)).2).capacity = srv.maxClients ∧
    serveGate (setMaxClients srv n) = semaphoreNew n := by
  refine ⟨?_, rfl⟩
  have key : ∀ (l : List ServeEvent) (p : ServerState × SemaphoreState),
      ((l.foldl serveStep p).2).capacity = p.2.capacity := by
    intro l
    induction l with
    | nil => intro p; rfl
    | cons e t ih =>
      intro p
      rw [List.foldl_cons, ih]
      cases e with
      | setMax m => rfl
      | acquire =>
        by_cases hc : p.2.permissions = p.2.capacity
        · simp [serveStep, semaphoreAcquire, hc]
        · simp [serveStep, semaphoreAcquire, hc]
      | release => rfl
  exact key evs _

end RVideo
